import Mathlib

/-!
Shallow embedding of the JR-Foxy moderation core: the warning ledger
(src/app/services/warnings.py), the escalation policy
(src/app/services/punishments.py together with the warn/unwarn handlers in
src/app/handlers/warnings.py), the candidate store and the scheduled-task
queue (src/app/core/db.py).  SQLite tables are modelled as Lean lists of
records; each SQL statement of the source is translated into the
corresponding pure list operation, and each service function into a pure
function threading the state explicitly.
-/

namespace JRFoxy

/-! ## Warning ledger -/

/-- Row of the `warnings` table / the `WarningRecord` dataclass of
src/app/services/warnings.py. -/
structure WarningRecord where
  id : Int
  user_id : Int
  chat_id : Int
  reason : String
  issued_at : Int
  expires_at : Int
  issued_by : Int
  issued_by_level : Int
  user_username_snapshot : Option String
  admin_username_snapshot : Option String
  is_revoked : Bool
  revoked_at : Option Int
  revoked_by : Option Int
deriving DecidableEq, Repr

/-- WARN_EXPIRY_DAYS = 30 in src/app/services/warnings.py. -/
def WARN_EXPIRY_DAYS : Int := 30

/-- Translation of `_expiry_ts`: issued time plus a 30-day validity window.
`datetime + timedelta(days=30)` in UTC adds exactly 30 * 86400 seconds. -/
def expiry_ts (issued_at : Int) : Int :=
  issued_at + WARN_EXPIRY_DAYS * 86400

/-- Active predicate of the source queries: `is_revoked = 0 AND expires_at > now`. -/
def isActiveAt (now : Int) (w : WarningRecord) : Bool :=
  !w.is_revoked && decide (now < w.expires_at)

/-- Row filter of the active-warnings queries:
`user_id = ? AND is_revoked = 0 AND expires_at > ?`. -/
def activeFor (user_id now : Int) (w : WarningRecord) : Bool :=
  w.user_id == user_id && isActiveAt now w

/-- Translation of `count_active_warnings`: `SELECT COUNT(*)` over the active
filter. -/
def count_active_warnings (user_id now : Int) (ws : List WarningRecord) : Nat :=
  (ws.filter (activeFor user_id now)).length

/-- State of the `warnings` table: the rows plus the next AUTOINCREMENT id. -/
structure LedgerState where
  next_id : Int
  warnings : List WarningRecord
deriving DecidableEq, Repr

/-- Translation of `create_warning`: one transaction inserting the row and
recomputing the active count at `now = issued_at` on the post-insert table. -/
def create_warning (user_id chat_id : Int) (reason : String)
    (issued_by issued_by_level : Int)
    (user_username_snapshot admin_username_snapshot : Option String)
    (now : Int) (s : LedgerState) : WarningRecord × Nat × LedgerState :=
  let issued_at := now
  let expires_at := expiry_ts issued_at
  let w : WarningRecord :=
    { id := s.next_id
      user_id := user_id
      chat_id := chat_id
      reason := reason
      issued_at := issued_at
      expires_at := expires_at
      issued_by := issued_by
      issued_by_level := issued_by_level
      user_username_snapshot := user_username_snapshot
      admin_username_snapshot := admin_username_snapshot
      is_revoked := false
      revoked_at := none
      revoked_by := none }
  let ws2 := s.warnings ++ [w]
  (w, count_active_warnings user_id issued_at ws2,
    { next_id := s.next_id + 1, warnings := ws2 })

/-- Strict "more recent" comparison backing `ORDER BY issued_at DESC, id DESC`:
`moreRecentB a b` holds when `a` sorts strictly before `b` in that order. -/
def moreRecentB (a b : WarningRecord) : Bool :=
  decide (b.issued_at < a.issued_at) ||
    (b.issued_at == a.issued_at && decide (b.id < a.id))

/-- Picks the row that `ORDER BY issued_at DESC, id DESC LIMIT 1` returns:
an element no other element is strictly more recent than. -/
def pickLatest : List WarningRecord → Option WarningRecord
  | [] => none
  | w :: ws =>
    match pickLatest ws with
    | none => some w
    | some b => if moreRecentB b w then some b else some w

/-- Translation of the selection query of `revoke_latest_warning` (also
`get_latest_active_warning`): latest row among the user's active rows. -/
def latest_active_warning (user_id now : Int) (ws : List WarningRecord) :
    Option WarningRecord :=
  pickLatest (ws.filter (activeFor user_id now))

/-- Translation of the `UPDATE warnings SET is_revoked = 1, revoked_at = ?,
revoked_by = ? WHERE id = ?` assignment applied to one row. -/
def applyRevocation (now revoked_by : Int) (w : WarningRecord) : WarningRecord :=
  { w with is_revoked := true, revoked_at := some now, revoked_by := some revoked_by }

/-- Translation of `revoke_latest_warning`: select the latest active row; if
none, return `none` with the recomputed count and an untouched table; else
flip the revocation fields of that row (by id) and recompute the count on the
post-update table at the same `now`. -/
def revoke_latest_warning (user_id revoked_by now : Int) (s : LedgerState) :
    Option WarningRecord × Nat × LedgerState :=
  match latest_active_warning user_id now s.warnings with
  | none => (none, count_active_warnings user_id now s.warnings, s)
  | some w =>
    let ws2 := s.warnings.map fun r =>
      if r.id == w.id then applyRevocation now revoked_by r else r
    (some (applyRevocation now revoked_by w),
      count_active_warnings user_id now ws2,
      { next_id := s.next_id, warnings := ws2 })

/-! ## Escalation policy and the warn / unwarn command flows -/

/-- Translation of `enforce_warning_ban` of src/app/services/punishments.py.
The Telegram call is abstracted by `ban_ok` (whether `ban_chat_member`
succeeds).  Result: (ban attempted, returned boolean).  The ban is attempted
exactly when the threshold check `active_count < 3` does not bail out; on a
platform failure the function returns False even though it attempted. -/
def enforce_warning_ban (active_count : Nat) (ban_ok : Bool) : Bool × Bool :=
  if active_count < 3 then (false, false)
  else (true, ban_ok)

/-- Moderation calls made against the messaging platform. -/
inductive PlatformAction where
  | banChatMember (chat_id user_id : Int)
  | unbanChatMember (chat_id user_id : Int)
deriving DecidableEq, Repr

/-- Translation of the state-changing core of `warn_handler`
(src/app/handlers/warnings.py): create the warning, and when the returned
active count reaches 3 call `enforce_warning_ban`, which issues the
`ban_chat_member` call in the chat the command ran in.  Returned components:
post state, created record, active count, platform moderation calls. -/
def warn_handler_flow (user_id chat_id : Int) (reason : String)
    (issued_by issued_by_level : Int)
    (user_username_snapshot admin_username_snapshot : Option String)
    (now : Int) (ban_ok : Bool) (s : LedgerState) :
    LedgerState × WarningRecord × Nat × List PlatformAction :=
  let r := create_warning user_id chat_id reason issued_by issued_by_level
    user_username_snapshot admin_username_snapshot now s
  let w := r.1
  let active_count := r.2.1
  let s2 := r.2.2
  if 3 ≤ active_count then
    let e := enforce_warning_ban active_count ban_ok
    (s2, w, active_count,
      if e.1 then [PlatformAction.banChatMember chat_id user_id] else [])
  else
    (s2, w, active_count, [])

/-- Translation of the state-changing core of `unwarn_handler`
(src/app/handlers/warnings.py): revoke the latest active warning.  The
handler only sends chat messages afterwards; it makes no `ban_chat_member`
or `unban_chat_member` call, so the moderation-call list is empty. -/
def unwarn_handler_flow (user_id revoked_by now : Int) (s : LedgerState) :
    LedgerState × Option WarningRecord × Nat × List PlatformAction :=
  let r := revoke_latest_warning user_id revoked_by now s
  (r.2.2, r.1, r.2.1, [])

/-! ## Ledger operation sequences (for the recomputed-count invariant) -/

/-- One ledger operation together with the wall-clock time it runs at. -/
inductive LedgerOp where
  | create (user_id chat_id : Int) (reason : String)
      (issued_by issued_by_level : Int)
      (user_username_snapshot admin_username_snapshot : Option String)
      (now : Int)
  | revoke (user_id revoked_by : Int) (now : Int)
deriving DecidableEq, Repr

/-- Subject user of a ledger operation. -/
def LedgerOp.user : LedgerOp → Int
  | .create u _ _ _ _ _ _ _ => u
  | .revoke u _ _ => u

/-- Logical time of a ledger operation. -/
def LedgerOp.time : LedgerOp → Int
  | .create _ _ _ _ _ _ _ now => now
  | .revoke _ _ now => now

/-- Runs one ledger operation, keeping the active count it returns. -/
def applyLedgerOp (s : LedgerState) : LedgerOp → Nat × LedgerState
  | .create u c r ib ibl us asn now =>
    ((create_warning u c r ib ibl us asn now s).2.1,
      (create_warning u c r ib ibl us asn now s).2.2)
  | .revoke u rb now =>
    ((revoke_latest_warning u rb now s).2.1,
      (revoke_latest_warning u rb now s).2.2)

/-- Runs a sequence of ledger operations, recording for each one the
operation, the active count it returned and the state right after it. -/
def runLedgerOps : LedgerState → List LedgerOp → List (LedgerOp × Nat × LedgerState)
  | _, [] => []
  | s, op :: rest =>
    (op, (applyLedgerOp s op).1, (applyLedgerOp s op).2) ::
      runLedgerOps (applyLedgerOp s op).2 rest

/-- Independent re-scan of the record set with the spec's active predicate
"not revoked AND expiry > now", stated propositionally. -/
def rescanActiveCount (user_id now : Int) (ws : List WarningRecord) : Nat :=
  (ws.filter fun w =>
    decide (w.user_id = user_id ∧ w.is_revoked = false ∧ now < w.expires_at)).length

/-! ## Candidate store -/

/-- Row of the `candidates` table of src/app/core/db.py. -/
structure Candidate where
  user_id : Int
  reception_chat_id : Int
  status : String
  created_at : Int
  review_due_at : Int
  wait_count : Int
  last_buttons_msg_id : Option Int
  reviewed_by : Option Int
  reviewed_at : Option Int
  invite_link : Option String
deriving DecidableEq, Repr

/-- The `UNIQUE(user_id, reception_chat_id)` key match. -/
def candKey (user_id reception_chat_id : Int) (c : Candidate) : Bool :=
  c.user_id == user_id && c.reception_chat_id == reception_chat_id

/-- The `ON CONFLICT ... DO UPDATE` assignment of `upsert_candidate_on_join`:
status back to candidate, fresh due time, decision fields cleared;
`created_at` and `wait_count` are not in the SET list and stay. -/
def resetOnJoin (review_due_at : Int) (c : Candidate) : Candidate :=
  { c with
    status := "candidate"
    review_due_at := review_due_at
    last_buttons_msg_id := none
    reviewed_by := none
    reviewed_at := none
    invite_link := none }

/-- Translation of `upsert_candidate_on_join`: insert a fresh candidate row,
or on a (user_id, reception_chat_id) conflict apply the `DO UPDATE` SET. -/
def upsert_candidate_on_join (user_id reception_chat_id review_due_at now : Int)
    (cs : List Candidate) : List Candidate :=
  if cs.any (candKey user_id reception_chat_id) then
    cs.map fun c =>
      if candKey user_id reception_chat_id c then resetOnJoin review_due_at c else c
  else
    cs ++ [{ user_id := user_id
             reception_chat_id := reception_chat_id
             status := "candidate"
             created_at := now
             review_due_at := review_due_at
             wait_count := 0
             last_buttons_msg_id := none
             reviewed_by := none
             reviewed_at := none
             invite_link := none }]

/-- Translation of `postpone_candidate_review`: `UPDATE candidates SET
review_due_at = ?, wait_count = wait_count + 1 WHERE user_id = ? AND
reception_chat_id = ?`. -/
def postpone_candidate_review (user_id reception_chat_id review_due_at : Int)
    (cs : List Candidate) : List Candidate :=
  cs.map fun c =>
    if candKey user_id reception_chat_id c then
      { c with review_due_at := review_due_at, wait_count := c.wait_count + 1 }
    else c

/-! ## Scheduled-task queue -/

/-- Row of the `scheduled_tasks` table of src/app/core/db.py. -/
structure ScheduledTask where
  id : Int
  task_type : String
  run_at : Int
  status : String
  chat_id : Option Int
  user_id : Option Int
  payload_json : Option String
  tries : Int
  last_error : Option String
  created_at : Int
  updated_at : Int
deriving DecidableEq, Repr

/-- WHERE clause of `cancel_pending_tasks`: `task_type = ? AND
status = 'pending'`, plus `chat_id = ?` / `user_id = ?` for each filter
given (SQL `NULL = ?` is not satisfied, hence the `some` match). -/
def cancelMatch (task_type : String) (chat_id user_id : Option Int)
    (t : ScheduledTask) : Bool :=
  t.task_type == task_type && t.status == "pending" &&
    (match chat_id with
     | none => true
     | some c => t.chat_id == some c) &&
    (match user_id with
     | none => true
     | some u => t.user_id == some u)

/-- Translation of `cancel_pending_tasks`: set the matching rows to
cancelled (stamping `updated_at`) and return the affected-row count. -/
def cancel_pending_tasks (task_type : String) (chat_id user_id : Option Int)
    (now : Int) (ts : List ScheduledTask) : Nat × List ScheduledTask :=
  ((ts.filter (cancelMatch task_type chat_id user_id)).length,
    ts.map fun t =>
      if cancelMatch task_type chat_id user_id t then
        { t with status := "cancelled", updated_at := now }
      else t)

/-- Comparison of `ORDER BY run_at ASC, id ASC`. -/
def dueLE (a b : ScheduledTask) : Bool :=
  decide (a.run_at < b.run_at) ||
    (a.run_at == b.run_at && decide (a.id ≤ b.id))

/-- Translation of `fetch_due_tasks`: rows with `status = 'pending' AND
run_at <= now`, ordered by `run_at ASC, id ASC`, first `limit` of them. -/
def fetch_due_tasks (now : Int) (limit : Nat) (ts : List ScheduledTask) :
    List ScheduledTask :=
  (((ts.filter fun t => t.status == "pending" && decide (t.run_at ≤ now)).mergeSort
    dueLE).take limit)

/-- WHERE clause of the claim update of `mark_task_running`:
`id = ? AND status = 'pending'`. -/
def claimMatch (task_id : Int) (t : ScheduledTask) : Bool :=
  t.id == task_id && t.status == "pending"

/-- Translation of `mark_task_running`: the conditional `UPDATE ... SET
status = 'running', tries = tries + 1, updated_at = ? WHERE id = ? AND
status = 'pending'`; the returned boolean is `rowcount > 0`. -/
def mark_task_running (task_id : Int) (now : Int) (ts : List ScheduledTask) :
    Bool × List ScheduledTask :=
  (decide (0 < (ts.filter (claimMatch task_id)).length),
    ts.map fun t =>
      if claimMatch task_id t then
        { t with status := "running", tries := t.tries + 1, updated_at := now }
      else t)

/-! ## Concrete sample rows, used by the closing examples -/

/-- Sample warning row for user 2 issued in chat 7, active until
`expiry_ts issued_at`. -/
def sampleWarn (id issued_at : Int) : WarningRecord :=
  { id := id
    user_id := 2
    chat_id := 7
    reason := "spam"
    issued_at := issued_at
    expires_at := expiry_ts issued_at
    issued_by := 9
    issued_by_level := 4
    user_username_snapshot := none
    admin_username_snapshot := none
    is_revoked := false
    revoked_at := none
    revoked_by := none }

/-- Sample scheduled-task row of type review_due for chat 7 / user 2. -/
def sampleTask (id run_at : Int) (status : String) : ScheduledTask :=
  { id := id
    task_type := "review_due"
    run_at := run_at
    status := status
    chat_id := some 7
    user_id := some 2
    payload_json := none
    tries := 0
    last_error := none
    created_at := 0
    updated_at := 0 }

/-- Sample candidate row for user 2 in reception chat 7, already reviewed. -/
def sampleCand : Candidate :=
  { user_id := 2
    reception_chat_id := 7
    status := "invited"
    created_at := 50
    review_due_at := 60
    wait_count := 2
    last_buttons_msg_id := some 11
    reviewed_by := some 9
    reviewed_at := some 55
    invite_link := some "L" }

/-! ## Helper lemmas -/

/-- Helper: a nodup list all of whose members equal `c` has at most one entry. -/
theorem length_le_one_of_nodup_of_all_eq {α : Type} {l : List α} {c : α}
    (hnd : l.Nodup) (h : ∀ a ∈ l, a = c) : l.length ≤ 1 := by
  cases l with
  | nil => simp
  | cons a t =>
    cases t with
    | nil => simp
    | cons b r =>
      exfalso
      rw [List.nodup_cons] at hnd
      apply hnd.1
      have ha := h a (by simp)
      have hb := h b (by simp)
      rw [ha.trans hb.symm]
      simp

/-- Helper: a filter of length at most one containing `c` is exactly `[c]`. -/
theorem filter_eq_singleton_of_unique {α : Type} {p : α → Bool} {l : List α} {c : α}
    (hlen : (l.filter p).length ≤ 1) (hc : c ∈ l) (hp : p c = true) :
    l.filter p = [c] := by
  have hmem : c ∈ l.filter p := List.mem_filter.mpr ⟨hc, hp⟩
  rcases hf : l.filter p with _ | ⟨a, rest⟩
  · rw [hf] at hmem
    simp at hmem
  · rw [hf] at hmem hlen
    have hrest : rest = [] := by
      cases rest with
      | nil => rfl
      | cons b r => simp [List.length_cons] at hlen
    subst hrest
    simp at hmem
    rw [hmem]

/-- Helper: filtering commutes with a map that does not change the predicate. -/
theorem filter_map_pred_inv {α : Type} (g : α → α) (p : α → Bool)
    (hg : ∀ a, p (g a) = p a) (l : List α) :
    (l.map g).filter p = (l.filter p).map g := by
  induction l with
  | nil => simp
  | cons a t ih =>
    simp only [List.map_cons, List.filter_cons, hg a]
    cases hpa : p a <;> simp [hpa, ih]

/-- Helper: a conditional row update with no matching row is the identity. -/
theorem map_ite_id_of_no_match {α : Type} {p : α → Bool} {f : α → α} {l : List α}
    (h : ∀ a ∈ l, p a = false) :
    (l.map fun a => if p a then f a else a) = l := by
  induction l with
  | nil => rfl
  | cons a t ih =>
    have ha := h a (by simp)
    simp [ha, ih fun b hb => h b (by simp [hb])]

/-- Helper: a conditional row update whose predicate selects exactly one row
is a point update of that row. -/
theorem map_ite_eq_set_of_unique {α : Type} {p : α → Bool} (f : α → α) :
    ∀ {l : List α} {x : α}, x ∈ l → p x = true → (l.filter p).length ≤ 1 →
      ∃ i, ∃ h : i < l.length, l.get ⟨i, h⟩ = x ∧
        (l.map fun a => if p a then f a else a) = l.set i (f x) := by
  intro l
  induction l with
  | nil =>
    intro x hx
    simp at hx
  | cons a t ih =>
    intro x hx hp hlen
    by_cases hpa : p a = true
    · rw [List.filter_cons_of_pos hpa, List.length_cons] at hlen
      have hft : t.filter p = [] := List.length_eq_zero.mp (by omega)
      have hxa : x = a := by
        rcases List.mem_cons.mp hx with h | h
        · exact h
        · exfalso
          have hm : x ∈ t.filter p := List.mem_filter.mpr ⟨h, hp⟩
          rw [hft] at hm
          simp at hm
      subst hxa
      have hnom : ∀ b ∈ t, p b = false := by
        intro b hb
        by_contra hpb
        rw [Bool.not_eq_false] at hpb
        have hm : b ∈ t.filter p := List.mem_filter.mpr ⟨hb, hpb⟩
        rw [hft] at hm
        simp at hm
      refine ⟨0, by simp, rfl, ?_⟩
      simp [hpa, map_ite_id_of_no_match hnom]
    · have hpa' : p a = false := by
        rw [← Bool.not_eq_true]
        exact hpa
      have hxt : x ∈ t := by
        rcases List.mem_cons.mp hx with h | h
        · subst h
          rw [hp] at hpa'
          simp at hpa'
        · exact h
      have hlent : (t.filter p).length ≤ 1 := by
        rw [List.filter_cons_of_neg (by simp [hpa'])] at hlen
        exact hlen
      obtain ⟨i, hi, hget, hmap⟩ := ih hxt hp hlent
      refine ⟨i + 1, by simpa using hi, by simpa using hget, ?_⟩
      simp [hpa', hmap]

/-- Helper: irreflexivity of the recency comparison. -/
theorem moreRecentB_irrefl (a : WarningRecord) : moreRecentB a a = false := by
  simp [moreRecentB]

/-- Helper: asymmetry of the recency comparison. -/
theorem moreRecentB_asymm {a b : WarningRecord} (h : moreRecentB a b = true) :
    moreRecentB b a = false := by
  simp [moreRecentB] at h ⊢
  omega

/-- Helper: negative transitivity of the recency comparison. -/
theorem moreRecentB_neg_trans {a b c : WarningRecord}
    (hab : moreRecentB a b = false) (hbc : moreRecentB b c = false) :
    moreRecentB a c = false := by
  simp [moreRecentB] at hab hbc ⊢
  omega

/-- Helper: the picked latest row is a member of the list. -/
theorem pickLatest_mem : ∀ {l : List WarningRecord} {m : WarningRecord},
    pickLatest l = some m → m ∈ l := by
  intro l
  induction l with
  | nil =>
    intro m h
    simp [pickLatest] at h
  | cons w ws ih =>
    intro m h
    simp only [pickLatest] at h
    cases hws : pickLatest ws with
    | none =>
      rw [hws] at h
      simp at h
      simp [h]
    | some b =>
      rw [hws] at h
      dsimp only at h
      by_cases hmb : moreRecentB b w = true
      · rw [if_pos hmb] at h
        simp at h
        subst h
        exact List.mem_cons_of_mem _ (ih hws)
      · rw [if_neg hmb] at h
        simp at h
        simp [h]

/-- Helper: no member of the list is strictly more recent than the picked row. -/
theorem pickLatest_maximal : ∀ {l : List WarningRecord} {m : WarningRecord},
    pickLatest l = some m → ∀ b ∈ l, moreRecentB b m = false := by
  intro l
  induction l with
  | nil =>
    intro m h
    simp [pickLatest] at h
  | cons w ws ih =>
    intro m h b hb
    simp only [pickLatest] at h
    cases hws : pickLatest ws with
    | none =>
      rw [hws] at h
      simp at h
      have hwsnil : ws = [] := by
        cases ws with
        | nil => rfl
        | cons c cs =>
          simp only [pickLatest] at hws
          cases hcs : pickLatest cs <;> rw [hcs] at hws <;> simp at hws
          split at hws <;> simp at hws
      subst hwsnil
      simp at hb
      subst hb
      rw [← h]
      exact moreRecentB_irrefl b
    | some r =>
      rw [hws] at h
      dsimp only at h
      by_cases hrw : moreRecentB r w = true
      · rw [if_pos hrw] at h
        simp at h
        subst h
        rcases List.mem_cons.mp hb with hbw | hbt
        · subst hbw
          exact moreRecentB_asymm hrw
        · exact ih hws b hbt
      · rw [if_neg hrw] at h
        simp at h
        subst h
        have hrw' : moreRecentB r w = false := by
          rw [← Bool.not_eq_true]
          exact hrw
        rcases List.mem_cons.mp hb with hbw | hbt
        · subst hbw
          exact moreRecentB_irrefl b
        · exact moreRecentB_neg_trans (ih hws b hbt) hrw'

/-- Helper: the derived active count coincides with the spec's re-scan count. -/
theorem count_eq_rescan (user_id now : Int) (ws : List WarningRecord) :
    count_active_warnings user_id now ws = rescanActiveCount user_id now ws := by
  unfold count_active_warnings rescanActiveCount
  congr 1
  apply List.filter_congr
  intro w _
  rw [Bool.eq_iff_iff]
  simp [activeFor, isActiveAt]

/-! ## Claim theorems -/

/-- C1: the escalation decision attempts the exclusion exactly when the
active count is at least 3 (and bails out with (false, false) below 3), and
neither the warn flow nor the unwarn flow ever issues an unban call, so a
revocation that drops the count below 3 never auto-reverses an exclusion. -/
theorem escalation_threshold_and_no_auto_unban :
    (∀ (n : Nat) (ok : Bool), (enforce_warning_ban n ok).1 = true ↔ 3 ≤ n) ∧
    (∀ (n : Nat) (ok : Bool), n < 3 → enforce_warning_ban n ok = (false, false)) ∧
    (∀ (u c : Int) (r : String) (ib lvl : Int) (us asn : Option String)
      (now : Int) (ok : Bool) (s : LedgerState) (ch uu : Int),
      PlatformAction.unbanChatMember ch uu ∉
        (warn_handler_flow u c r ib lvl us asn now ok s).2.2.2) ∧
    (∀ (u rb now : Int) (s : LedgerState),
      (unwarn_handler_flow u rb now s).2.2.2 = []) := by
  refine ⟨?_, ?_, ?_, ?_⟩
  · intro n ok
    by_cases h : n < 3
    · simp only [enforce_warning_ban, if_pos h]
      constructor
      · intro hfalse
        simp at hfalse
      · intro h3
        omega
    · simp only [enforce_warning_ban, if_neg h]
      simp
      omega
  · intro n ok h
    simp [enforce_warning_ban, h]
  · intro u c r ib lvl us asn now ok s ch uu
    simp only [warn_handler_flow]
    split
    · split <;> simp
    · simp
  · intro u rb now s
    rfl

/-- Witness for C1 at concrete inputs. -/
theorem escalation_threshold_and_no_auto_unban_witness :
    ((enforce_warning_ban 3 true).1 = true ↔ 3 ≤ 3) ∧
    (2 < 3 ∧ enforce_warning_ban 2 true = (false, false)) ∧
    PlatformAction.unbanChatMember 7 2 ∉
      (warn_handler_flow 2 7 "spam" 9 4 none none 100 true
        { next_id := 1, warnings := [] }).2.2.2 ∧
    (unwarn_handler_flow 2 9 100 { next_id := 1, warnings := [] }).2.2.2 = [] :=
  ⟨escalation_threshold_and_no_auto_unban.1 3 true,
    ⟨by decide, escalation_threshold_and_no_auto_unban.2.1 2 true (by decide)⟩,
    escalation_threshold_and_no_auto_unban.2.2.1 2 7 "spam" 9 4 none none 100 true
      { next_id := 1, warnings := [] } 7 2,
    escalation_threshold_and_no_auto_unban.2.2.2 2 9 100
      { next_id := 1, warnings := [] }⟩

/-- C9: the active-count query filters only by user id, so rewriting every
chat id leaves the count unchanged (warnings from different chats
accumulate), and the warn flow creates the latest warning in the chat the
command ran in and, at the threshold, issues the ban in that same chat. -/
theorem warnings_accumulate_across_chats :
    (∀ (user now : Int) (ws : List WarningRecord) (g : WarningRecord → Int),
      count_active_warnings user now (ws.map fun w => { w with chat_id := g w }) =
        count_active_warnings user now ws) ∧
    (∀ (u c : Int) (r : String) (ib lvl : Int) (us asn : Option String)
      (now : Int) (ok : Bool) (s : LedgerState),
      (warn_handler_flow u c r ib lvl us asn now ok s).2.1.chat_id = c ∧
      (3 ≤ (warn_handler_flow u c r ib lvl us asn now ok s).2.2.1 →
        (warn_handler_flow u c r ib lvl us asn now ok s).2.2.2 =
          [PlatformAction.banChatMember c u]) ∧
      ((warn_handler_flow u c r ib lvl us asn now ok s).2.2.1 < 3 →
        (warn_handler_flow u c r ib lvl us asn now ok s).2.2.2 = [])) := by
  constructor
  · intro user now ws g
    have hg : ∀ a : WarningRecord,
        activeFor user now { a with chat_id := g a } = activeFor user now a :=
      fun a => rfl
    unfold count_active_warnings
    rw [filter_map_pred_inv _ _ hg, List.length_map]
  · intro u c r ib lvl us asn now ok s
    refine ⟨?_, ?_, ?_⟩
    · simp only [warn_handler_flow]
      split <;> rfl
    · simp only [warn_handler_flow]
      split
      · intro h3
        next hcond =>
          simp [enforce_warning_ban, Nat.not_lt.mpr hcond]
      · intro h3
        next hcond => exact absurd h3 hcond
    · simp only [warn_handler_flow]
      split
      · intro hlt
        next hcond =>
          dsimp only at hlt
          omega
      · intro _
        rfl

/-- Witness for C9 at concrete inputs: two prior warnings from chat 7, a
third warn command in the same chat pushes the cross-chat count to 3 and
bans in chat 7; an empty ledger stays below the threshold with no ban. -/
theorem warnings_accumulate_across_chats_witness :
    count_active_warnings 2 100
        ([sampleWarn 1 10, sampleWarn 2 20].map fun w => { w with chat_id := 0 }) =
      count_active_warnings 2 100 [sampleWarn 1 10, sampleWarn 2 20] ∧
    (warn_handler_flow 2 7 "spam" 9 4 none none 100 true
      { next_id := 3, warnings := [sampleWarn 1 10, sampleWarn 2 20] }).2.1.chat_id = 7 ∧
    3 ≤ (warn_handler_flow 2 7 "spam" 9 4 none none 100 true
      { next_id := 3, warnings := [sampleWarn 1 10, sampleWarn 2 20] }).2.2.1 ∧
    (warn_handler_flow 2 7 "spam" 9 4 none none 100 true
      { next_id := 3, warnings := [sampleWarn 1 10, sampleWarn 2 20] }).2.2.2 =
        [PlatformAction.banChatMember 7 2] ∧
    (warn_handler_flow 2 7 "spam" 9 4 none none 100 true
      { next_id := 1, warnings := [] }).2.2.1 < 3 ∧
    (warn_handler_flow 2 7 "spam" 9 4 none none 100 true
      { next_id := 1, warnings := [] }).2.2.2 = [] :=
  ⟨warnings_accumulate_across_chats.1 2 100 [sampleWarn 1 10, sampleWarn 2 20]
      (fun _ => 0),
    (warnings_accumulate_across_chats.2 2 7 "spam" 9 4 none none 100 true
      { next_id := 3, warnings := [sampleWarn 1 10, sampleWarn 2 20] }).1,
    by decide,
    (warnings_accumulate_across_chats.2 2 7 "spam" 9 4 none none 100 true
      { next_id := 3, warnings := [sampleWarn 1 10, sampleWarn 2 20] }).2.1 (by decide),
    by decide,
    (warnings_accumulate_across_chats.2 2 7 "spam" 9 4 none none 100 true
      { next_id := 1, warnings := [] }).2.2 (by decide)⟩

/-- Helper: every single ledger operation returns the count obtained by
re-scanning the post-operation record set at the operation's time. -/
theorem applyLedgerOp_count (s : LedgerState) (op : LedgerOp) :
    (applyLedgerOp s op).1 =
      rescanActiveCount op.user op.time (applyLedgerOp s op).2.warnings := by
  cases op with
  | create u c r ib ibl us asn now =>
    simp only [applyLedgerOp, LedgerOp.user, LedgerOp.time, create_warning]
    exact count_eq_rescan u now _
  | revoke u rb now =>
    simp only [applyLedgerOp, LedgerOp.user, LedgerOp.time, revoke_latest_warning]
    cases latest_active_warning u now s.warnings with
    | none => exact count_eq_rescan u now s.warnings
    | some w => exact count_eq_rescan u now _

/-- C2: along any sequence of create/revoke operations, the active count
returned by each operation equals the count obtained by independently
re-scanning all records with the active predicate at that operation's
logical time (it is derived, never read from a stored counter). -/
theorem active_count_always_recomputed :
    ∀ (ops : List LedgerOp) (s : LedgerState) (op : LedgerOp) (cnt : Nat)
      (s2 : LedgerState), (op, cnt, s2) ∈ runLedgerOps s ops →
      cnt = rescanActiveCount op.user op.time s2.warnings := by
  intro ops
  induction ops with
  | nil =>
    intro s op cnt s2 h
    simp [runLedgerOps] at h
  | cons o rest ih =>
    intro s op cnt s2 h
    simp only [runLedgerOps, List.mem_cons] at h
    rcases h with h | h
    · rw [Prod.mk.injEq, Prod.mk.injEq] at h
      obtain ⟨ho, hc, hs⟩ := h
      subst ho
      subst hc
      subst hs
      exact applyLedgerOp_count s op
    · exact ih _ _ _ _ h

/-- Witness for C2: one create operation on an empty ledger returns count 1,
matching the re-scan of the single-record set at time 100. -/
theorem active_count_always_recomputed_witness :
    (LedgerOp.create 2 7 "spam" 9 4 none none 100,
      (applyLedgerOp { next_id := 1, warnings := [] }
        (LedgerOp.create 2 7 "spam" 9 4 none none 100)).1,
      (applyLedgerOp { next_id := 1, warnings := [] }
        (LedgerOp.create 2 7 "spam" 9 4 none none 100)).2) ∈
      runLedgerOps { next_id := 1, warnings := [] }
        [LedgerOp.create 2 7 "spam" 9 4 none none 100] ∧
    (applyLedgerOp { next_id := 1, warnings := [] }
      (LedgerOp.create 2 7 "spam" 9 4 none none 100)).1 = 1 ∧
    (applyLedgerOp { next_id := 1, warnings := [] }
        (LedgerOp.create 2 7 "spam" 9 4 none none 100)).1 =
      rescanActiveCount 2 100
        (applyLedgerOp { next_id := 1, warnings := [] }
          (LedgerOp.create 2 7 "spam" 9 4 none none 100)).2.warnings :=
  ⟨by simp [runLedgerOps], by decide,
    active_count_always_recomputed
      [LedgerOp.create 2 7 "spam" 9 4 none none 100]
      { next_id := 1, warnings := [] }
      (LedgerOp.create 2 7 "spam" 9 4 none none 100) _ _
      (by simp [runLedgerOps])⟩

/-- C4: revoking for a user with no active record returns `none` together
with the recomputed (zero) active count, leaves every record and the whole
ledger state unchanged, and the active count after the call equals the one
before it. -/
theorem revoke_with_no_active_is_noop
    (user rb now : Int) (s : LedgerState)
    (h : s.warnings.filter (activeFor user now) = []) :
    revoke_latest_warning user rb now s =
      (none, count_active_warnings user now s.warnings, s) ∧
    count_active_warnings user now s.warnings = 0 ∧
    count_active_warnings user now
        (revoke_latest_warning user rb now s).2.2.warnings =
      count_active_warnings user now s.warnings := by
  have hnone : latest_active_warning user now s.warnings = none := by
    unfold latest_active_warning
    rw [h]
    rfl
  have heq : revoke_latest_warning user rb now s =
      (none, count_active_warnings user now s.warnings, s) := by
    unfold revoke_latest_warning
    rw [hnone]
  refine ⟨heq, ?_, by rw [heq]⟩
  unfold count_active_warnings
  rw [h]
  rfl

/-- Witness for C4: a ledger holding one revoked record has no active
record for user 2, and revoking is a no-op returning `none` and count 0. -/
theorem revoke_with_no_active_is_noop_witness :
    (({ next_id := 2,
        warnings := [{ sampleWarn 1 10 with
          is_revoked := true, revoked_at := some 20, revoked_by := some 9 }] } :
        LedgerState).warnings.filter (activeFor 2 100) = []) ∧
    (revoke_latest_warning 2 9 100
        { next_id := 2,
          warnings := [{ sampleWarn 1 10 with
            is_revoked := true, revoked_at := some 20, revoked_by := some 9 }] } =
      (none,
        count_active_warnings 2 100
          [{ sampleWarn 1 10 with
            is_revoked := true, revoked_at := some 20, revoked_by := some 9 }],
        { next_id := 2,
          warnings := [{ sampleWarn 1 10 with
            is_revoked := true, revoked_at := some 20, revoked_by := some 9 }] }) ∧
      count_active_warnings 2 100
        [{ sampleWarn 1 10 with
          is_revoked := true, revoked_at := some 20, revoked_by := some 9 }] = 0 ∧
      count_active_warnings 2 100
          (revoke_latest_warning 2 9 100
            { next_id := 2,
              warnings := [{ sampleWarn 1 10 with
                is_revoked := true, revoked_at := some 20,
                revoked_by := some 9 }] }).2.2.warnings =
        count_active_warnings 2 100
          [{ sampleWarn 1 10 with
            is_revoked := true, revoked_at := some 20, revoked_by := some 9 }]) :=
  ⟨by decide, revoke_with_no_active_is_noop 2 9 100 _ (by decide)⟩

/-- C7: with an active record present, the revocation selects the most
recent active record of the user, flips exactly its three revocation
fields, returns that updated record, and leaves every other record — and
the total number of records — unchanged (a point update, no deletion). -/
theorem revoke_latest_modifies_exactly_one
    (user rb now : Int) (s : LedgerState) (w : WarningRecord)
    (hnd : (s.warnings.map fun r => r.id).Nodup)
    (hsel : latest_active_warning user now s.warnings = some w) :
    w ∈ s.warnings ∧ activeFor user now w = true ∧
    (∀ r ∈ s.warnings, activeFor user now r = true →
      ¬(w.issued_at < r.issued_at ∨ (w.issued_at = r.issued_at ∧ w.id < r.id))) ∧
    (revoke_latest_warning user rb now s).1 =
      some { w with
        is_revoked := true
        revoked_at := some now
        revoked_by := some rb } ∧
    (∃ i, ∃ h : i < s.warnings.length, s.warnings.get ⟨i, h⟩ = w ∧
      (revoke_latest_warning user rb now s).2.2.warnings =
        s.warnings.set i
          { w with
            is_revoked := true
            revoked_at := some now
            revoked_by := some rb }) ∧
    (revoke_latest_warning user rb now s).2.2.warnings.length =
      s.warnings.length := by
  have hmemf : w ∈ s.warnings.filter (activeFor user now) := pickLatest_mem hsel
  have hmem : w ∈ s.warnings := (List.mem_filter.mp hmemf).1
  have hact : activeFor user now w = true := (List.mem_filter.mp hmemf).2
  have hinj := List.inj_on_of_nodup_map hnd
  have hflen : (s.warnings.filter fun r => r.id == w.id).length ≤ 1 := by
    apply length_le_one_of_nodup_of_all_eq
      (List.Nodup.filter _ (List.Nodup.of_map _ hnd))
    intro a ha
    have hid : a.id = w.id := by simpa using (List.mem_filter.mp ha).2
    exact hinj (List.mem_filter.mp ha).1 hmem hid
  obtain ⟨i, hi, hget, hmap⟩ :=
    map_ite_eq_set_of_unique (applyRevocation now rb) hmem (by simp) hflen
  have heq : revoke_latest_warning user rb now s =
      (some (applyRevocation now rb w),
        count_active_warnings user now
          (s.warnings.map fun r =>
            if r.id == w.id then applyRevocation now rb r else r),
        { next_id := s.next_id,
          warnings := s.warnings.map fun r =>
            if r.id == w.id then applyRevocation now rb r else r }) := by
    unfold revoke_latest_warning
    rw [hsel]
  refine ⟨hmem, hact, ?_, ?_, ⟨i, hi, hget, ?_⟩, ?_⟩
  · intro r hr hra
    have hrf : r ∈ s.warnings.filter (activeFor user now) :=
      List.mem_filter.mpr ⟨hr, hra⟩
    have hmx := pickLatest_maximal hsel r hrf
    simp [moreRecentB] at hmx
    omega
  · rw [heq]
    rfl
  · rw [heq]
    exact hmap
  · rw [heq]
    simp

/-- Witness for C7: of two active records the newer (id 2, issued at 20) is
selected and revoked in place. -/
theorem revoke_latest_modifies_exactly_one_witness :
    ([sampleWarn 1 10, sampleWarn 2 20].map fun r => r.id).Nodup ∧
    latest_active_warning 2 100 [sampleWarn 1 10, sampleWarn 2 20] =
      some (sampleWarn 2 20) ∧
    (sampleWarn 2 20 ∈ [sampleWarn 1 10, sampleWarn 2 20] ∧
      activeFor 2 100 (sampleWarn 2 20) = true ∧
      (∀ r ∈ [sampleWarn 1 10, sampleWarn 2 20], activeFor 2 100 r = true →
        ¬((sampleWarn 2 20).issued_at < r.issued_at ∨
          ((sampleWarn 2 20).issued_at = r.issued_at ∧
            (sampleWarn 2 20).id < r.id))) ∧
      (revoke_latest_warning 2 9 100
          { next_id := 3, warnings := [sampleWarn 1 10, sampleWarn 2 20] }).1 =
        some { sampleWarn 2 20 with
          is_revoked := true
          revoked_at := some 100
          revoked_by := some 9 } ∧
      (∃ i, ∃ h : i < ([sampleWarn 1 10, sampleWarn 2 20] :
          List WarningRecord).length,
        ([sampleWarn 1 10, sampleWarn 2 20] : List WarningRecord).get ⟨i, h⟩ =
            sampleWarn 2 20 ∧
          (revoke_latest_warning 2 9 100
              { next_id := 3,
                warnings := [sampleWarn 1 10, sampleWarn 2 20] }).2.2.warnings =
            ([sampleWarn 1 10, sampleWarn 2 20] : List WarningRecord).set i
              { sampleWarn 2 20 with
                is_revoked := true
                revoked_at := some 100
                revoked_by := some 9 }) ∧
      (revoke_latest_warning 2 9 100
          { next_id := 3,
            warnings := [sampleWarn 1 10, sampleWarn 2 20] }).2.2.warnings.length =
        ([sampleWarn 1 10, sampleWarn 2 20] : List WarningRecord).length) :=
  ⟨by decide, by decide,
    revoke_latest_modifies_exactly_one 2 9 100
      { next_id := 3, warnings := [sampleWarn 1 10, sampleWarn 2 20] }
      (sampleWarn 2 20) (by decide) (by decide)⟩

/-- C3: claiming task `tid` succeeds exactly when the task's status is
pending at the call; on success it is a point update to running with the
attempt counter incremented, on failure the store is untouched; and an
immediately repeated claim of the same id returns false and changes
nothing, so two serialized claims yield exactly one true and one false. -/
theorem task_claim_exclusive
    (tid now now2 : Int) (ts : List ScheduledTask) (t : ScheduledTask)
    (hnd : (ts.map fun x => x.id).Nodup) (hmem : t ∈ ts) (hid : t.id = tid) :
    ((mark_task_running tid now ts).1 = true ↔ t.status = "pending") ∧
    (t.status ≠ "pending" → (mark_task_running tid now ts).2 = ts) ∧
    (t.status = "pending" →
      ∃ i, ∃ h : i < ts.length, ts.get ⟨i, h⟩ = t ∧
        (mark_task_running tid now ts).2 =
          ts.set i { t with
            status := "running"
            tries := t.tries + 1
            updated_at := now }) ∧
    mark_task_running tid now2 (mark_task_running tid now ts).2 =
      (false, (mark_task_running tid now ts).2) := by
  have hinj := List.inj_on_of_nodup_map hnd
  have hall : ∀ a ∈ ts, claimMatch tid a = true → a = t ∧ t.status = "pending" := by
    intro a ha hca
    simp only [claimMatch, Bool.and_eq_true, beq_iff_eq] at hca
    have hat : a = t := hinj ha hmem (by rw [hca.1, hid])
    exact ⟨hat, hat ▸ hca.2⟩
  refine ⟨?_, ?_, ?_, ?_⟩
  · constructor
    · intro h1
      simp only [mark_task_running, decide_eq_true_eq] at h1
      obtain ⟨a, ha⟩ :=
        List.exists_mem_of_ne_nil _ (List.length_pos.mp h1)
      exact (hall a (List.mem_filter.mp ha).1 (List.mem_filter.mp ha).2).2
    · intro hp
      have hct : claimMatch tid t = true := by
        simp [claimMatch, hid, hp]
      have hmf : t ∈ ts.filter (claimMatch tid) := List.mem_filter.mpr ⟨hmem, hct⟩
      simp only [mark_task_running, decide_eq_true_eq]
      exact List.length_pos.mpr (List.ne_nil_of_mem hmf)
  · intro hnp
    have hno : ∀ a ∈ ts, claimMatch tid a = false := by
      intro a ha
      by_contra hc
      rw [Bool.not_eq_false] at hc
      exact hnp (hall a ha hc).2
    simp only [mark_task_running]
    exact map_ite_id_of_no_match hno
  · intro hp
    have hct : claimMatch tid t = true := by
      simp [claimMatch, hid, hp]
    have hflen : (ts.filter (claimMatch tid)).length ≤ 1 := by
      apply length_le_one_of_nodup_of_all_eq
        (List.Nodup.filter _ (List.Nodup.of_map _ hnd))
      intro a ha
      exact (hall a (List.mem_filter.mp ha).1 (List.mem_filter.mp ha).2).1
    obtain ⟨i, hi, hget, hmap⟩ :=
      map_ite_eq_set_of_unique
        (fun a => { a with
          status := "running"
          tries := a.tries + 1
          updated_at := now }) hmem hct hflen
    refine ⟨i, hi, hget, ?_⟩
    simp only [mark_task_running]
    exact hmap
  · have hno2 : ∀ a ∈ (mark_task_running tid now ts).2,
        claimMatch tid a = false := by
      intro a ha
      simp only [mark_task_running] at ha
      obtain ⟨b, hb, hba⟩ := List.mem_map.mp ha
      by_cases hcb : claimMatch tid b = true
      · rw [if_pos hcb] at hba
        rw [← hba]
        simp [claimMatch]
      · rw [if_neg hcb] at hba
        rw [← hba, ← Bool.not_eq_true]
        exact hcb
    have hf : (mark_task_running tid now ts).2.filter (claimMatch tid) = [] := by
      rw [List.filter_eq_nil_iff]
      intro a ha
      rw [hno2 a ha]
      simp
    simp only [mark_task_running]
    rw [Prod.mk.injEq]
    constructor
    · simp only [mark_task_running] at hf
      simp [hf]
    · apply map_ite_id_of_no_match
      intro a ha
      apply hno2
      simp only [mark_task_running]
      exact ha

/-- Witness for C3: one pending task with id 5; the first claim returns
true and sets it running with one try, the repeated claim returns false
and leaves the store unchanged. -/
theorem task_claim_exclusive_witness :
    (([sampleTask 5 40 "pending"].map fun x => x.id).Nodup ∧
      sampleTask 5 40 "pending" ∈ [sampleTask 5 40 "pending"]) ∧
    ((mark_task_running 5 41 [sampleTask 5 40 "pending"]).1 = true ↔
      (sampleTask 5 40 "pending").status = "pending") ∧
    ((sampleTask 5 40 "pending").status = "pending" →
      ∃ i, ∃ h : i < ([sampleTask 5 40 "pending"] : List ScheduledTask).length,
        ([sampleTask 5 40 "pending"] : List ScheduledTask).get ⟨i, h⟩ =
            sampleTask 5 40 "pending" ∧
          (mark_task_running 5 41 [sampleTask 5 40 "pending"]).2 =
            ([sampleTask 5 40 "pending"] : List ScheduledTask).set i
              { sampleTask 5 40 "pending" with
                status := "running"
                tries := (sampleTask 5 40 "pending").tries + 1
                updated_at := 41 }) ∧
    mark_task_running 5 42 (mark_task_running 5 41 [sampleTask 5 40 "pending"]).2 =
      (false, (mark_task_running 5 41 [sampleTask 5 40 "pending"]).2) :=
  ⟨⟨by decide, by decide⟩,
    (task_claim_exclusive 5 41 42 [sampleTask 5 40 "pending"]
      (sampleTask 5 40 "pending") (by decide) (by decide) (by decide)).1,
    (task_claim_exclusive 5 41 42 [sampleTask 5 40 "pending"]
      (sampleTask 5 40 "pending") (by decide) (by decide) (by decide)).2.2.1,
    (task_claim_exclusive 5 41 42 [sampleTask 5 40 "pending"]
      (sampleTask 5 40 "pending") (by decide) (by decide) (by decide)).2.2.2⟩

/-- Helper: both upsert branches leave exactly one key-matching row, in
candidate status, with the freshly supplied due time and cleared
reviewer/decision fields. -/
theorem upsert_filter_key (u ch due now : Int) (cs : List Candidate)
    (huniq : (cs.filter (candKey u ch)).length ≤ 1) :
    ∃ c, (upsert_candidate_on_join u ch due now cs).filter (candKey u ch) = [c] ∧
      c.status = "candidate" ∧ c.review_due_at = due ∧
      c.last_buttons_msg_id = none ∧ c.reviewed_by = none ∧
      c.reviewed_at = none ∧ c.invite_link = none := by
  unfold upsert_candidate_on_join
  by_cases hany : cs.any (candKey u ch) = true
  · rw [if_pos hany]
    obtain ⟨c0, hc0m, hc0k⟩ := List.any_eq_true.mp hany
    have hg : ∀ a : Candidate,
        candKey u ch (if candKey u ch a then resetOnJoin due a else a) =
          candKey u ch a := by
      intro a
      by_cases hk : candKey u ch a = true
      · rw [if_pos hk]
        rfl
      · rw [if_neg hk]
    have hfe : cs.filter (candKey u ch) = [c0] :=
      filter_eq_singleton_of_unique huniq hc0m hc0k
    rw [filter_map_pred_inv _ _ hg, hfe]
    refine ⟨resetOnJoin due c0, ?_, rfl, rfl, rfl, rfl, rfl, rfl⟩
    simp [hc0k]
  · rw [if_neg hany]
    have hfe : cs.filter (candKey u ch) = [] := by
      rw [List.filter_eq_nil_iff]
      intro a ha hk
      exact hany (List.any_eq_true.mpr ⟨a, ha, hk⟩)
    rw [List.filter_append, hfe, List.nil_append]
    refine ⟨{ user_id := u
              reception_chat_id := ch
              status := "candidate"
              created_at := now
              review_due_at := due
              wait_count := 0
              last_buttons_msg_id := none
              reviewed_by := none
              reviewed_at := none
              invite_link := none }, ?_, rfl, rfl, rfl, rfl, rfl, rfl⟩
    rw [List.filter_cons_of_pos (by simp [candKey])]
    rfl

/-- Helper: on a key conflict the upsert rewrites the existing row with the
`DO UPDATE` SET and nothing else ends up under that key. -/
theorem upsert_conflict_filter (u ch due now : Int) (cs : List Candidate)
    (c : Candidate) (huniq : (cs.filter (candKey u ch)).length ≤ 1)
    (hmem : c ∈ cs) (hkey : candKey u ch c = true) :
    (upsert_candidate_on_join u ch due now cs).filter (candKey u ch) =
      [resetOnJoin due c] := by
  unfold upsert_candidate_on_join
  rw [if_pos (List.any_eq_true.mpr ⟨c, hmem, hkey⟩)]
  have hg : ∀ a : Candidate,
      candKey u ch (if candKey u ch a then resetOnJoin due a else a) =
        candKey u ch a := by
    intro a
    by_cases hk : candKey u ch a = true
    · rw [if_pos hk]
      rfl
    · rw [if_neg hk]
  rw [filter_map_pred_inv _ _ hg,
    filter_eq_singleton_of_unique huniq hmem hkey]
  simp [hkey]

/-- C5: two upserts for the same (user, admission-space) pair — whatever the
row's status in between — leave exactly one row under that key, in candidate
status, carrying the due time of the second call, with the reviewer and
decision fields (reviewed_by, reviewed_at, invite_link, last buttons
message) all cleared. -/
theorem upsert_on_join_idempotent
    (u ch due1 due2 now1 now2 : Int) (cs : List Candidate)
    (huniq : (cs.filter (candKey u ch)).length ≤ 1) :
    ∃ c, (upsert_candidate_on_join u ch due2 now2
        (upsert_candidate_on_join u ch due1 now1 cs)).filter (candKey u ch) =
      [c] ∧
      c.status = "candidate" ∧ c.review_due_at = due2 ∧
      c.last_buttons_msg_id = none ∧ c.reviewed_by = none ∧
      c.reviewed_at = none ∧ c.invite_link = none ∧
      ∀ d ∈ upsert_candidate_on_join u ch due2 now2
          (upsert_candidate_on_join u ch due1 now1 cs),
        candKey u ch d = true → d = c := by
  obtain ⟨c1, hf1, _⟩ := upsert_filter_key u ch due1 now1 cs huniq
  have huniq1 : ((upsert_candidate_on_join u ch due1 now1 cs).filter
      (candKey u ch)).length ≤ 1 := by
    rw [hf1]
    simp
  obtain ⟨c, hf2, hst, hdue, hbtn, hrb, hra, hlink⟩ :=
    upsert_filter_key u ch due2 now2 _ huniq1
  refine ⟨c, hf2, hst, hdue, hbtn, hrb, hra, hlink, ?_⟩
  intro d hd hk
  have : d ∈ (upsert_candidate_on_join u ch due2 now2
      (upsert_candidate_on_join u ch due1 now1 cs)).filter (candKey u ch) :=
    List.mem_filter.mpr ⟨hd, hk⟩
  rw [hf2] at this
  simpa using this

/-- Witness for C5: a second join upsert on a freshly inserted row resets it
with the newer due time. -/
theorem upsert_on_join_idempotent_witness :
    (([] : List Candidate).filter (candKey 2 7)).length ≤ 1 ∧
    (∃ c, (upsert_candidate_on_join 2 7 90 80
        (upsert_candidate_on_join 2 7 60 50 [])).filter (candKey 2 7) = [c] ∧
      c.status = "candidate" ∧ c.review_due_at = 90 ∧
      c.last_buttons_msg_id = none ∧ c.reviewed_by = none ∧
      c.reviewed_at = none ∧ c.invite_link = none ∧
      ∀ d ∈ upsert_candidate_on_join 2 7 90 80
          (upsert_candidate_on_join 2 7 60 50 []),
        candKey 2 7 d = true → d = c) :=
  ⟨by decide, upsert_on_join_idempotent 2 7 60 90 50 80 [] (by decide)⟩

/-- C10: when the upsert hits an existing (user, admission-space) row, the
conflict update keeps that row's wait counter and original created
timestamp; in particular a postpone (wait_count + 1) followed by a
leave-and-rejoin upsert still shows the incremented counter. -/
theorem upsert_on_join_preserves_wait_and_created
    (u ch due1 due2 now1 now2 : Int) (cs : List Candidate) (c : Candidate)
    (huniq : (cs.filter (candKey u ch)).length ≤ 1)
    (hmem : c ∈ cs) (hkey : candKey u ch c = true) :
    (upsert_candidate_on_join u ch due2 now2 cs).filter (candKey u ch) =
      [resetOnJoin due2 c] ∧
    (resetOnJoin due2 c).wait_count = c.wait_count ∧
    (resetOnJoin due2 c).created_at = c.created_at ∧
    (upsert_candidate_on_join u ch due2 now2
        (postpone_candidate_review u ch due1 cs)).filter (candKey u ch) =
      [resetOnJoin due2
        { c with review_due_at := due1, wait_count := c.wait_count + 1 }] ∧
    (resetOnJoin due2
        { c with review_due_at := due1, wait_count := c.wait_count + 1 }).wait_count =
      c.wait_count + 1 := by
  have hg : ∀ a : Candidate,
      candKey u ch (if candKey u ch a then
        { a with review_due_at := due1, wait_count := a.wait_count + 1 }
      else a) = candKey u ch a := by
    intro a
    by_cases hk : candKey u ch a = true
    · rw [if_pos hk]
      rfl
    · rw [if_neg hk]
  have hpfe : (postpone_candidate_review u ch due1 cs).filter (candKey u ch) =
      [{ c with review_due_at := due1, wait_count := c.wait_count + 1 }] := by
    unfold postpone_candidate_review
    rw [filter_map_pred_inv _ _ hg,
      filter_eq_singleton_of_unique huniq hmem hkey]
    simp [hkey]
  have hpuniq : ((postpone_candidate_review u ch due1 cs).filter
      (candKey u ch)).length ≤ 1 := by
    rw [hpfe]
    simp
  have hpmem : ({ c with review_due_at := due1, wait_count := c.wait_count + 1 } :
      Candidate) ∈ postpone_candidate_review u ch due1 cs := by
    have := hpfe ▸ List.mem_cons_self
      ({ c with review_due_at := due1, wait_count := c.wait_count + 1 } :
        Candidate) []
    exact (List.mem_filter.mp this).1
  refine ⟨upsert_conflict_filter u ch due2 now2 cs c huniq hmem hkey, rfl, rfl,
    ?_, rfl⟩
  exact upsert_conflict_filter u ch due2 now2 _ _ hpuniq hpmem hkey

/-- Witness for C10: sampleCand (wait_count 2, created 50, already
reviewed) is reset by a rejoin but keeps wait_count 2 and created 50, and
a postpone before the rejoin yields wait_count 3. -/
theorem upsert_on_join_preserves_wait_and_created_witness :
    (([sampleCand].filter (candKey 2 7)).length ≤ 1 ∧ sampleCand ∈ [sampleCand] ∧
      candKey 2 7 sampleCand = true) ∧
    (upsert_candidate_on_join 2 7 90 80 [sampleCand]).filter (candKey 2 7) =
      [resetOnJoin 90 sampleCand] ∧
    (resetOnJoin 90 sampleCand).wait_count = sampleCand.wait_count ∧
    (resetOnJoin 90 sampleCand).created_at = sampleCand.created_at ∧
    (upsert_candidate_on_join 2 7 90 80
        (postpone_candidate_review 2 7 70 [sampleCand])).filter (candKey 2 7) =
      [resetOnJoin 90
        { sampleCand with
          review_due_at := 70
          wait_count := sampleCand.wait_count + 1 }] ∧
    (resetOnJoin 90
        { sampleCand with
          review_due_at := 70
          wait_count := sampleCand.wait_count + 1 }).wait_count =
      sampleCand.wait_count + 1 :=
  ⟨⟨by decide, by decide, by decide⟩,
    upsert_on_join_preserves_wait_and_created 2 7 70 90 50 80 [sampleCand]
      sampleCand (by decide) (by decide) (by decide)⟩

/-- C6: every task fetched as due is pending with its due time passed, the
returned sequence is sorted by due time ascending with id ascending as the
tie-break, and it holds at most `limit` tasks. -/
theorem fetch_due_tasks_spec (now : Int) (limit : Nat) (ts : List ScheduledTask) :
    (∀ t ∈ fetch_due_tasks now limit ts, t.status = "pending" ∧ t.run_at ≤ now) ∧
    (fetch_due_tasks now limit ts).Pairwise (fun a b => dueLE a b = true) ∧
    (fetch_due_tasks now limit ts).length ≤ limit := by
  refine ⟨?_, ?_, ?_⟩
  · intro t ht
    have h1 : t ∈ (ts.filter fun x =>
        x.status == "pending" && decide (x.run_at ≤ now)).mergeSort dueLE :=
      List.take_subset _ _ ht
    rw [List.mem_mergeSort] at h1
    have h2 := (List.mem_filter.mp h1).2
    simp only [Bool.and_eq_true, beq_iff_eq, decide_eq_true_eq] at h2
    exact h2
  · have htrans : ∀ a b c : ScheduledTask, dueLE a b → dueLE b c → dueLE a c := by
      intro a b c hab hbc
      simp only [dueLE, Bool.or_eq_true, Bool.and_eq_true, beq_iff_eq,
        decide_eq_true_eq] at hab hbc ⊢
      omega
    have htotal : ∀ a b : ScheduledTask, dueLE a b || dueLE b a := by
      intro a b
      simp only [dueLE, Bool.or_eq_true, Bool.and_eq_true, beq_iff_eq,
        decide_eq_true_eq]
      omega
    exact List.Pairwise.sublist (List.take_sublist _ _)
      (List.sorted_mergeSort htrans htotal _)
  · unfold fetch_due_tasks
    rw [List.length_take]
    exact min_le_left _ _

/-- Witness for C6: with two due pending tasks, a future pending task and
a done task, the fetch returns exactly the due pending ones in
(run_at, id) order within limit 2. -/
theorem fetch_due_tasks_spec_witness :
    sampleTask 5 40 "pending" ∈
      fetch_due_tasks 60 2
        [sampleTask 5 40 "pending", sampleTask 6 50 "pending",
          sampleTask 7 99 "pending", sampleTask 8 10 "done"] ∧
    ((sampleTask 5 40 "pending").status = "pending" ∧
      (sampleTask 5 40 "pending").run_at ≤ 60) ∧
    (fetch_due_tasks 60 2
        [sampleTask 5 40 "pending", sampleTask 6 50 "pending",
          sampleTask 7 99 "pending", sampleTask 8 10 "done"]).Pairwise
      (fun a b => dueLE a b = true) ∧
    (fetch_due_tasks 60 2
        [sampleTask 5 40 "pending", sampleTask 6 50 "pending",
          sampleTask 7 99 "pending", sampleTask 8 10 "done"]).length ≤ 2 ∧
    fetch_due_tasks 60 2
        [sampleTask 5 40 "pending", sampleTask 6 50 "pending",
          sampleTask 7 99 "pending", sampleTask 8 10 "done"] =
      [sampleTask 5 40 "pending", sampleTask 6 50 "pending"] := by
  have hfe : fetch_due_tasks 60 2
      [sampleTask 5 40 "pending", sampleTask 6 50 "pending",
        sampleTask 7 99 "pending", sampleTask 8 10 "done"] =
      [sampleTask 5 40 "pending", sampleTask 6 50 "pending"] := by
    unfold fetch_due_tasks
    rw [List.mergeSort_of_sorted (by decide)]
    decide
  refine ⟨?_, ?_, ?_, ?_, hfe⟩
  · rw [hfe]
    decide
  · exact (fetch_due_tasks_spec 60 2
      [sampleTask 5 40 "pending", sampleTask 6 50 "pending",
        sampleTask 7 99 "pending", sampleTask 8 10 "done"]).1
      (sampleTask 5 40 "pending") (by rw [hfe]; decide)
  · exact (fetch_due_tasks_spec 60 2
      [sampleTask 5 40 "pending", sampleTask 6 50 "pending",
        sampleTask 7 99 "pending", sampleTask 8 10 "done"]).2.1
  · exact (fetch_due_tasks_spec 60 2
      [sampleTask 5 40 "pending", sampleTask 6 50 "pending",
        sampleTask 7 99 "pending", sampleTask 8 10 "done"]).2.2

/-- C8: the bulk cancel flips exactly the pending tasks matching the type
and the given correlation filters to cancelled and returns their number; a
row that does not match — in particular any row whose status is not
pending — is left entirely unchanged. -/
theorem cancel_pending_tasks_spec (ty : String) (cf uf : Option Int)
    (now : Int) (ts : List ScheduledTask) :
    (cancel_pending_tasks ty cf uf now ts).1 =
      (ts.filter (cancelMatch ty cf uf)).length ∧
    (cancel_pending_tasks ty cf uf now ts).2.length = ts.length ∧
    (∀ (i : Nat) (t : ScheduledTask), ts[i]? = some t →
      cancelMatch ty cf uf t = true →
      (cancel_pending_tasks ty cf uf now ts).2[i]? =
        some { t with status := "cancelled", updated_at := now }) ∧
    (∀ (i : Nat) (t : ScheduledTask), ts[i]? = some t →
      cancelMatch ty cf uf t = false →
      (cancel_pending_tasks ty cf uf now ts).2[i]? = some t) ∧
    (∀ t ∈ ts, t.status ≠ "pending" → cancelMatch ty cf uf t = false) := by
  refine ⟨rfl, by simp [cancel_pending_tasks], ?_, ?_, ?_⟩
  · intro i t hit hm
    simp [cancel_pending_tasks, List.getElem?_map, hit, hm]
  · intro i t hit hm
    simp [cancel_pending_tasks, List.getElem?_map, hit, hm]
  · intro t _ hs
    have hb : (t.status == "pending") = false := by
      simpa using hs
    simp [cancelMatch, hb]

/-- Witness for C8: of a matching pending row and a done row of the same
type, the cancel flips only the first, returns count 1 and stamps it
cancelled. -/
theorem cancel_pending_tasks_spec_witness :
    (cancel_pending_tasks ("review_due") none none 60
        [sampleTask 5 40 "pending", sampleTask 6 40 "done"]).1 =
      (([sampleTask 5 40 "pending", sampleTask 6 40 "done"] :
        List ScheduledTask).filter (cancelMatch ("review_due") none none)).length ∧
    (cancel_pending_tasks ("review_due") none none 60
        [sampleTask 5 40 "pending", sampleTask 6 40 "done"]).1 = 1 ∧
    (cancel_pending_tasks ("review_due") none none 60
        [sampleTask 5 40 "pending", sampleTask 6 40 "done"]).2[0]? =
      some { sampleTask 5 40 "pending" with
        status := "cancelled"
        updated_at := 60 } ∧
    (cancel_pending_tasks ("review_due") none none 60
        [sampleTask 5 40 "pending", sampleTask 6 40 "done"]).2[1]? =
      some (sampleTask 6 40 "done") ∧
    cancelMatch ("review_due") none none (sampleTask 6 40 "done") = false :=
  ⟨(cancel_pending_tasks_spec ("review_due") none none 60
      [sampleTask 5 40 "pending", sampleTask 6 40 "done"]).1,
    by decide,
    (cancel_pending_tasks_spec ("review_due") none none 60
      [sampleTask 5 40 "pending", sampleTask 6 40 "done"]).2.2.1 0
      (sampleTask 5 40 "pending") (by decide) (by decide),
    (cancel_pending_tasks_spec ("review_due") none none 60
      [sampleTask 5 40 "pending", sampleTask 6 40 "done"]).2.2.2.1 1
      (sampleTask 6 40 "done") (by decide) (by decide),
    (cancel_pending_tasks_spec ("review_due") none none 60
      [sampleTask 5 40 "pending", sampleTask 6 40 "done"]).2.2.2.2
      (sampleTask 6 40 "done") (by decide) (by decide)⟩

end JRFoxy
